import Mathlib

/-!
Shallow embedding of `swebench/harness/generate_blueprints.py`:
the Dockerfile compositor (`with_file_mounts_for_copies` and the composite
assembly inside `main`), the per-instance JSON artifact outputs, and the
blueprint build polling loop.  Machine-level strings stay Lean `String`s;
Python `bytes` become `List Nat` (each element < 256); exceptions become
`Except` / explicit outcome types.
-/

/-- Python `str.split()` whitespace predicate, restricted to the ASCII
whitespace characters that can occur in the Dockerfile texts handled here
(space, tab, newline, carriage return, vertical tab, form feed). -/
def isPySpace (c : Char) : Bool :=
  c = ' ' || c = '\t' || c = '\n' || c = '\r' || c = '\x0b' || c = '\x0c'

/-- Split a character list at every character satisfying `p`, keeping empty
pieces (the list-level core of Python `str.split(sep)`). -/
def pySplitCharsIf (p : Char → Bool) : List Char → List (List Char)
  | [] => [[]]
  | c :: cs =>
      match pySplitCharsIf p cs with
      | g :: gs => if p c then [] :: g :: gs else (c :: g) :: gs
      | [] => if p c then [[], []] else [[c]]

/-- Python `s.split(sep)` for a one-character separator: split at every
occurrence, keeping empty pieces. -/
def pySplitOn (sep : Char) (s : String) : List String :=
  (pySplitCharsIf (fun c => c = sep) s.toList).map String.mk

/-- Python `line.split()`: split on runs of whitespace, discarding empty
pieces (so leading/trailing whitespace produces no empty tokens). -/
def pythonSplit (s : String) : List String :=
  ((pySplitCharsIf isPySpace s.toList).filter (fun t => t ≠ [])).map String.mk

/-- Python `s.lstrip()`: drop leading whitespace characters. -/
def pyLstrip (s : String) : String :=
  String.mk (s.toList.dropWhile isPySpace)

/-- Python `s.startswith(pre)`. -/
def pyStartsWith (pre s : String) : Bool :=
  pre.toList.isPrefixOf s.toList

/-- Python `"\n".join(lines)`. -/
def joinNl (lines : List String) : String :=
  String.mk (List.intercalate ['\n'] (lines.map String.toList))

/-- UTF-8 encoding of a single Unicode code point (mirrors Python
`str.encode('utf-8')` applied character by character). -/
def utf8EncodeChar (n : Nat) : List Nat :=
  if n < 0x80 then [n]
  else if n < 0x800 then [0xc0 + n / 0x40, 0x80 + n % 0x40]
  else if n < 0x10000 then
    [0xe0 + n / 0x1000, 0x80 + (n / 0x40) % 0x40, 0x80 + n % 0x40]
  else
    [0xf0 + n / 0x40000, 0x80 + (n / 0x1000) % 0x40,
      0x80 + (n / 0x40) % 0x40, 0x80 + n % 0x40]

/-- Python `content.encode('utf-8')`: the UTF-8 byte sequence of a string. -/
def utf8Encode (s : String) : List Nat :=
  s.toList.flatMap (fun c => utf8EncodeChar c.toNat)

/-- The standard base64 alphabet, as used by Python `base64.b64encode`. -/
def b64Alphabet : List Char :=
  "ABCDEFGHIJKLMNOPQRSTUVWXYZabcdefghijklmnopqrstuvwxyz0123456789+/".toList

/-- Character of the base64 alphabet at a sextet value. -/
def b64Char (n : Nat) : Char :=
  b64Alphabet.getD n 'A'

/-- Index of a character in the base64 alphabet (used only by the decoder). -/
def b64Index (c : Char) : Nat :=
  b64Alphabet.indexOf c

/-- Python `base64.b64encode`: bytes to base64 characters, three bytes per
four characters, `=`-padded at the end. -/
def b64EncodeList : List Nat → List Char
  | [] => []
  | [b1] => [b64Char (b1 / 4), b64Char (b1 % 4 * 16), '=', '=']
  | [b1, b2] =>
      [b64Char (b1 / 4), b64Char (b1 % 4 * 16 + b2 / 16),
        b64Char (b2 % 16 * 4), '=']
  | b1 :: b2 :: b3 :: rest =>
      b64Char (b1 / 4) :: b64Char (b1 % 4 * 16 + b2 / 16) ::
        b64Char (b2 % 16 * 4 + b3 / 64) :: b64Char (b3 % 64) ::
          b64EncodeList rest

/-- `base64.b64encode(content.encode('utf-8')).decode('utf-8')` from line 34
of the source: the base64 payload string for a file mount's content. -/
def b64OfString (content : String) : String :=
  String.mk (b64EncodeList (utf8Encode content))

/-- Base64 decoding (the inverse direction used by the spec's round-trip
property; at build time this is done by `base64 -d`). -/
def b64DecodeList : List Char → Option (List Nat)
  | [] => some []
  | c1 :: c2 :: c3 :: c4 :: rest =>
      if c4 = '=' then
        if c3 = '=' then
          if rest = [] then some [b64Index c1 * 4 + b64Index c2 / 16] else none
        else
          if rest = [] then
            some [b64Index c1 * 4 + b64Index c2 / 16,
              b64Index c2 % 16 * 16 + b64Index c3 / 4]
          else none
      else
        match b64DecodeList rest with
        | some tail =>
            some ((b64Index c1 * 4 + b64Index c2 / 16) ::
              (b64Index c2 % 16 * 16 + b64Index c3 / 4) ::
                (b64Index c3 % 4 * 64 + b64Index c4) :: tail)
        | none => none
  | _ => none

/-- Decode one UTF-8-encoded code point from the front of a byte sequence,
returning it with the remaining bytes. -/
def utf8DecodeOne : List Nat → Option (Nat × List Nat)
  | [] => none
  | b1 :: rest =>
      if b1 < 0x80 then some (b1, rest)
      else if b1 < 0xe0 then
        match rest with
        | b2 :: rest2 => some ((b1 - 0xc0) * 0x40 + (b2 - 0x80), rest2)
        | [] => none
      else if b1 < 0xf0 then
        match rest with
        | b2 :: b3 :: rest3 =>
            some ((b1 - 0xe0) * 0x1000 + (b2 - 0x80) * 0x40 + (b3 - 0x80),
              rest3)
        | _ => none
      else
        match rest with
        | b2 :: b3 :: b4 :: rest4 =>
            some ((b1 - 0xf0) * 0x40000 + (b2 - 0x80) * 0x1000 +
              (b3 - 0x80) * 0x40 + (b4 - 0x80), rest4)
        | _ => none

/-- Repeatedly decode code points; the fuel (always instantiated to the byte
count, which bounds the number of code points) keeps the recursion
structural. -/
def utf8DecodeFuel : Nat → List Nat → Option (List Nat)
  | _, [] => some []
  | 0, _ :: _ => none
  | fuel + 1, b1 :: rest =>
      match utf8DecodeOne (b1 :: rest) with
      | some (cp, rest2) =>
          match utf8DecodeFuel fuel rest2 with
          | some tail => some (cp :: tail)
          | none => none
      | none => none

/-- UTF-8 decoding of a byte sequence back to code points (the inverse
direction used by the spec's round-trip property). -/
def utf8Decode (bs : List Nat) : Option (List Nat) :=
  utf8DecodeFuel bs.length bs

/-- Decode a base64 payload string back to text: base64-decode to bytes,
UTF-8-decode to code points, rebuild the string. -/
def decodeB64Utf8 (payload : String) : Option String :=
  match b64DecodeList payload.toList with
  | some bytes =>
      match utf8Decode bytes with
      | some cps => some (String.mk (cps.map Char.ofNat))
      | none => none
  | none => none

/-- The failure modes of the compositing code path.  `missingMount` is the
`AssertionError` from `assert src in file_mounts` (line 33), `valueError` is
the tuple-unpacking failure of `src, dest = line.split()[1:]` (line 32), and
`indexError` is `\x7b...\x7d.split("\n", 1)[1]` on a fragment with no newline
(lines 90-98). -/
inductive CompositeError where
  | missingMount (src : String)
  | valueError
  | indexError
  deriving DecidableEq, Repr

/-- One iteration of the loop in `with_file_mounts_for_copies` (lines 30-39):
a `COPY `-prefixed line is unpacked into source and destination, the source
is looked up among the file mounts, and the line is replaced by a `RUN`
instruction inlining the base64-encoded mount content; any other line passes
through unchanged. -/
def processLine (fileMounts : List (String × String)) (line : String) :
    Except CompositeError String :=
  if pyStartsWith "COPY " line then
    match (pythonSplit line).drop 1 with
    | [src, dest] =>
        match fileMounts.lookup src with
        | some content =>
            .ok ("RUN echo " ++ b64OfString content ++ " | base64 -d > " ++
              dest ++ (pySplitOn '/' src).getLastD "")
        | none => .error (.missingMount src)
    | _ => .error .valueError
  else
    .ok line

/-- The whole loop of `with_file_mounts_for_copies`: process the lines in
order, stopping at the first raised error. -/
def processLines (fileMounts : List (String × String)) :
    List String → Except CompositeError (List String)
  | [] => .ok []
  | l :: ls =>
      match processLine fileMounts l with
      | .ok l' =>
          match processLines fileMounts ls with
          | .ok ls' => .ok (l' :: ls')
          | .error e => .error e
      | .error e => .error e

/-- `with_file_mounts_for_copies` (lines 25-40): split the Dockerfile text on
newlines, rewrite `COPY ` lines, rejoin with newlines. -/
def with_file_mounts_for_copies (fileMounts : List (String × String))
    (dockerfile : String) : Except CompositeError String :=
  match processLines fileMounts (pySplitOn '\n' dockerfile) with
  | .ok newLines => .ok (joinNl newLines)
  | .error e => .error e

/-- The fixed backend base image line (line 82 of the source). -/
def fixedBaseImageLine : String :=
  "FROM public.ecr.aws/f7m5a7m8/devbox:prod"

/-- `fragment.lstrip().split("\n", 1)[1]` (lines 90-98): everything after the
first newline of the left-stripped fragment; `IndexError` when the stripped
fragment contains no newline. -/
def stripFirstLine (fragment : String) : Except CompositeError String :=
  match pySplitOn '\n' (pyLstrip fragment) with
  | _ :: rest@(_ :: _) => .ok (joinNl rest)
  | _ => .error .indexError

/-- The composite Dockerfile assembly of `main` (lines 82-101): start from
the fixed base image line, append each fragment with its first line removed
(no separator is inserted between the pieces), then rewrite `COPY ` lines
against the file mounts. -/
def buildComposite (baseDockerfile envDockerfile instanceDockerfile : String)
    (fileMounts : List (String × String)) : Except CompositeError String :=
  match stripFirstLine baseDockerfile with
  | .error e => .error e
  | .ok b =>
      match stripFirstLine envDockerfile with
      | .error e => .error e
      | .ok e =>
          match stripFirstLine instanceDockerfile with
          | .error e => .error e
          | .ok i =>
              with_file_mounts_for_copies fileMounts
                (fixedBaseImageLine ++ b ++ e ++ i)

/-- The per-instance data collected from a test spec into `instance_images`
(lines 64-76): identifier, platform, the three Dockerfile fragments, the two
setup scripts, and the two image-name strings. -/
structure ImageSpecData where
  instance_id : String
  platform : String
  base_dockerfile : String
  env_image_name : String
  env_dockerfile : String
  setup_env_script : String
  instance_image_name : String
  instance_dockerfile : String
  instance_setup_script : String
  deriving DecidableEq, Repr

/-- The fragment of JSON needed to describe the two artifact files: strings
and objects with ordered fields (Python dicts keep insertion order). -/
inductive JsonVal where
  | str (s : String)
  | obj (fields : List (String × JsonVal))

/-- The dictionary dumped to `<id>.json` (lines 64-80), fields in insertion
order. -/
def rawJson (d : ImageSpecData) : JsonVal :=
  .obj [("platform", .str d.platform),
    ("base_dockerfile", .str d.base_dockerfile),
    ("env_image_name", .str d.env_image_name),
    ("env_dockerfile", .str d.env_dockerfile),
    ("setup_env_script", .str d.setup_env_script),
    ("instance_image_name", .str d.instance_image_name),
    ("instance_dockerfile", .str d.instance_dockerfile),
    ("instance_setup_script", .str d.instance_setup_script)]

/-- The file mounts built in `main` (lines 84-87): the two setup scripts
keyed by their virtual paths. -/
def mainFileMounts (d : ImageSpecData) : List (String × String) :=
  [("./setup_env.sh", d.setup_env_script),
    ("./setup_repo.sh", d.instance_setup_script)]

/-- The composite Dockerfile `main` builds for one instance (lines 82-101). -/
def compositeFor (d : ImageSpecData) : Except CompositeError String :=
  buildComposite d.base_dockerfile d.env_dockerfile d.instance_dockerfile
    (mainFileMounts d)

/-- The two files `main` writes for one instance (lines 78-110), as
(filename, JSON content) pairs, on the path where compositing succeeds.
Note the file name `_compostite.json` spelled exactly as in lines 81
and 119 of the source. -/
def outputsFor (d : ImageSpecData) : Except CompositeError (List (String × JsonVal)) :=
  match compositeFor d with
  | .ok composite =>
      .ok [(d.instance_id ++ ".json", rawJson d),
        (d.instance_id ++ "_compostite.json",
          .obj [("dockerfile", .str composite)])]
  | .error e => .error e

/-- A remote blueprint as seen by the polling loop: its identifier and
status (`bp.id`, `bp.status`). -/
structure BlueprintView where
  id : Option String
  status : String
  deriving DecidableEq, Repr

/-- The possible outcomes of the polling loop of `main` (lines 128-135).
`buildFailed` records the number of retrieve calls made and the payload of
the raised exception; `assertFailed` is the `assert bp.id is not None`
failure; `pollsExhausted` marks runs where the modelled response sequence
ends while the build is still in progress (the source would keep polling). -/
inductive AwaitOutcome where
  | success (polls : Nat)
  | buildFailed (polls : Nat) (message : String)
  | assertFailed (polls : Nat)
  | pollsExhausted
  deriving DecidableEq, Repr

/-- The terminal statuses of the polling loop (line 128). -/
def terminalStatuses : List String :=
  ["build_complete", "failed"]

/-- The payload of the exception raised on a failed build:
`raise Exception("Blueprint failed")` (line 135) carries only this fixed
message. -/
def buildFailedMessage : String :=
  "Blueprint failed"

/-- The polling loop of `main` (lines 128-135): while the status is not
terminal, sleep, assert the identifier is present, and retrieve a fresh
view; once terminal, raise on `failed`, otherwise succeed.  The remote
retrieve endpoint is modelled by the list of views it will return on
successive calls; `polls` counts the retrieve calls made so far. -/
def awaitCompletion : BlueprintView → List BlueprintView → Nat → AwaitOutcome
  | bp, responses, polls =>
      if bp.status ∈ terminalStatuses then
        if bp.status = "failed" then .buildFailed polls buildFailedMessage
        else .success polls
      else
        match bp.id with
        | none => .assertFailed polls
        | some _ =>
            match responses with
            | [] => .pollsExhausted
            | r :: rest => awaitCompletion r rest (polls + 1)

/-- A concrete Image Spec used to evaluate the artifact-writing path. -/
def specExample : ImageSpecData :=
  { instance_id := "i-1"
    platform := "linux/x86_64"
    base_dockerfile := "FROM a\n\nRUN x"
    env_image_name := "env-img"
    env_dockerfile := "FROM a\n\nRUN y"
    setup_env_script := "echo env"
    instance_image_name := "inst-img"
    instance_dockerfile := "FROM a\n\nRUN z"
    instance_setup_script := "echo repo" }

theorem processLines_ok_length {m : List (String × String)} :
    ∀ {ls out : List String}, processLines m ls = .ok out →
      out.length = ls.length := by
  intro ls
  induction ls with
  | nil =>
      intro out h
      unfold processLines at h
      cases h
      rfl
  | cons l ls ih =>
      intro out h
      unfold processLines at h
      cases hl : processLine m l with
      | error e => rw [hl] at h; cases h
      | ok l' =>
          rw [hl] at h
          cases hrest : processLines m ls with
          | error e => rw [hrest] at h; cases h
          | ok ls' =>
              rw [hrest] at h
              cases h
              simp [ih hrest]

theorem processLines_ok_getD {m : List (String × String)} :
    ∀ {ls out : List String}, processLines m ls = .ok out →
      ∀ i : Nat, i < ls.length →
        processLine m (ls.getD i "") = .ok (out.getD i "") := by
  intro ls
  induction ls with
  | nil => intro out h i hi; cases hi
  | cons l ls ih =>
      intro out h i hi
      unfold processLines at h
      cases hl : processLine m l with
      | error e => rw [hl] at h; cases h
      | ok l' =>
          rw [hl] at h
          cases hrest : processLines m ls with
          | error e => rw [hrest] at h; cases h
          | ok ls' =>
              rw [hrest] at h
              cases h
              cases i with
              | zero => simpa using hl
              | succ j =>
                  simp only [List.getD_cons_succ]
                  exact ih hrest j (by simpa using hi)

theorem processLines_missing {m : List (String × String)} :
    ∀ {ls : List String},
      (∀ l ∈ ls, pyStartsWith "COPY " l = true →
        ((pythonSplit l).drop 1).length = 2) →
      (∃ l ∈ ls, pyStartsWith "COPY " l = true ∧
        ∃ src dest, (pythonSplit l).drop 1 = [src, dest] ∧
          m.lookup src = none) →
      ∃ s, processLines m ls = .error (.missingMount s) ∧
        m.lookup s = none := by
  intro ls
  induction ls with
  | nil =>
      intro _ hbad
      rcases hbad with ⟨l, hl, _⟩
      cases hl
  | cons l ls ih =>
      intro hwf hbad
      by_cases hc : pyStartsWith "COPY " l = true
      · have h2 := hwf l (List.mem_cons_self l ls) hc
        obtain ⟨a, b, hab⟩ := List.length_eq_two.mp h2
        cases hlk : m.lookup a with
        | none =>
            refine ⟨a, ?_, hlk⟩
            unfold processLines processLine
            simp [hc, hab, hlk]
        | some content =>
            rcases hbad with ⟨l0, hl0mem, hl0c, src, dest, hsd, hnone⟩
            rcases List.mem_cons.mp hl0mem with heq | hmem
            · subst heq
              rw [hab] at hsd
              cases hsd
              rw [hlk] at hnone
              cases hnone
            · obtain ⟨s, hs, hsn⟩ :=
                ih (fun x hx => hwf x (List.mem_cons_of_mem l hx))
                  ⟨l0, hmem, hl0c, src, dest, hsd, hnone⟩
              refine ⟨s, ?_, hsn⟩
              unfold processLines processLine
              simp [hc, hab, hlk, hs]
      · rcases hbad with ⟨l0, hl0mem, hl0c, src, dest, hsd, hnone⟩
        rcases List.mem_cons.mp hl0mem with heq | hmem
        · subst heq; exact absurd hl0c hc
        · obtain ⟨s, hs, hsn⟩ :=
            ih (fun x hx => hwf x (List.mem_cons_of_mem l hx))
              ⟨l0, hmem, hl0c, src, dest, hsd, hnone⟩
          refine ⟨s, ?_, hsn⟩
          unfold processLines processLine
          simp [hc, hs]

/-- Claim C1 (counterexample): on the three minimal fragments of the claim,
compositing glues the pieces together with no separating newline, so the
result is a single line: its first line is not the fixed base image line and
`RUN x` is not one of its lines. -/
theorem c1_counterexample :
    buildComposite "FROM a\nRUN x" "FROM a\nRUN y" "FROM a\nCOPY ./s.sh /app/"
        [("./s.sh", "echo hi")] =
      .ok "FROM public.ecr.aws/f7m5a7m8/devbox:prodRUN xRUN yCOPY ./s.sh /app/" ∧
    (pySplitOn '\n'
        "FROM public.ecr.aws/f7m5a7m8/devbox:prodRUN xRUN yCOPY ./s.sh /app/").headD ""
      ≠ fixedBaseImageLine ∧
    "RUN x" ∉ pySplitOn '\n'
      "FROM public.ecr.aws/f7m5a7m8/devbox:prodRUN xRUN yCOPY ./s.sh /app/" :=
  ⟨rfl, by decide, by decide⟩

/-- Claim C1 (corrected): when each minimal fragment carries a blank line
after its `FROM` line (as the real generated fragments do), compositing
yields a Dockerfile whose first line is exactly the fixed base image line,
whose lines include `RUN x` and `RUN y`, and whose lines include the
rewritten `RUN echo ZWNobyBoaQ== | base64 -d > /app/s.sh` with the correct
base64 payload for `echo hi`. -/
theorem c1_theorem :
    buildComposite "FROM a\n\nRUN x" "FROM a\n\nRUN y"
        "FROM a\n\nCOPY ./s.sh /app/" [("./s.sh", "echo hi")] =
      .ok "FROM public.ecr.aws/f7m5a7m8/devbox:prod\nRUN x\nRUN y\nRUN echo ZWNobyBoaQ== | base64 -d > /app/s.sh" ∧
    (pySplitOn '\n'
        "FROM public.ecr.aws/f7m5a7m8/devbox:prod\nRUN x\nRUN y\nRUN echo ZWNobyBoaQ== | base64 -d > /app/s.sh").headD ""
      = fixedBaseImageLine ∧
    "RUN x" ∈ pySplitOn '\n'
      "FROM public.ecr.aws/f7m5a7m8/devbox:prod\nRUN x\nRUN y\nRUN echo ZWNobyBoaQ== | base64 -d > /app/s.sh" ∧
    "RUN y" ∈ pySplitOn '\n'
      "FROM public.ecr.aws/f7m5a7m8/devbox:prod\nRUN x\nRUN y\nRUN echo ZWNobyBoaQ== | base64 -d > /app/s.sh" ∧
    "RUN echo ZWNobyBoaQ== | base64 -d > /app/s.sh" ∈ pySplitOn '\n'
      "FROM public.ecr.aws/f7m5a7m8/devbox:prod\nRUN x\nRUN y\nRUN echo ZWNobyBoaQ== | base64 -d > /app/s.sh" ∧
    b64OfString "echo hi" = "ZWNobyBoaQ==" :=
  ⟨rfl, by decide, by decide, by decide, by decide, rfl⟩

/-- Claim C2 (counterexample): for a concrete Image Spec with identifier
`i-1`, the two artifact files are named `i-1.json` and `i-1_compostite.json`
(spelled as in the source); no file named `i-1_composite.json` is written. -/
theorem c2_counterexample :
    Except.map (fun fs => fs.map Prod.fst) (outputsFor specExample) =
      .ok ["i-1.json", "i-1_compostite.json"] ∧
    Except.map (fun fs => (fs.map Prod.fst).contains "i-1_composite.json")
      (outputsFor specExample) = .ok false :=
  ⟨rfl, rfl⟩

/-- Claim C2 (corrected): for every Image Spec whose compositing succeeds,
the program writes exactly two files: `<id>.json` holding the raw Image Spec
fields in insertion order, and `<id>_compostite.json` (spelled with the
source's transposition) holding the object with the single key `dockerfile`
mapped to the composed Dockerfile string. -/
theorem c2_theorem (d : ImageSpecData) (composite : String)
    (h : compositeFor d = .ok composite) :
    outputsFor d =
      .ok [(d.instance_id ++ ".json", rawJson d),
        (d.instance_id ++ "_compostite.json",
          JsonVal.obj [("dockerfile", .str composite)])] := by
  unfold outputsFor
  rw [h]

theorem c2_witness :
    compositeFor specExample =
      .ok "FROM public.ecr.aws/f7m5a7m8/devbox:prod\nRUN x\nRUN y\nRUN z" ∧
    outputsFor specExample =
      .ok [("i-1.json", rawJson specExample),
        ("i-1_compostite.json", JsonVal.obj [("dockerfile",
          .str "FROM public.ecr.aws/f7m5a7m8/devbox:prod\nRUN x\nRUN y\nRUN z")])] :=
  ⟨rfl, c2_theorem specExample _ rfl⟩

/-- Claim C3 (counterexample): with an instance fragment whose first line is
`RUN z` (not `FROM ...`), compositing does not fail: it silently drops that
first line and produces output. -/
theorem c3_counterexample :
    buildComposite "FROM a\n\nRUN x" "FROM a\n\nRUN y" "RUN z\nRUN w" [] =
      .ok "FROM public.ecr.aws/f7m5a7m8/devbox:prod\nRUN x\nRUN yRUN w" :=
  rfl

/-- Claim C3 (corrected): compositing performs no validation of the leading
`FROM` line at all — there is no malformed-fragment error in the code.
Whenever first-line stripping succeeds on each fragment (which needs only a
newline in the left-stripped text, nothing about `FROM`), the composite is
fully determined by the stripped tails, so a fragment whose first line is
not `FROM ...` is silently truncated rather than rejected. -/
theorem c3_theorem (base env inst : String) (m : List (String × String))
    (b e i : String)
    (hb : stripFirstLine base = .ok b) (he : stripFirstLine env = .ok e)
    (hi : stripFirstLine inst = .ok i) :
    buildComposite base env inst m =
      with_file_mounts_for_copies m (fixedBaseImageLine ++ b ++ e ++ i) := by
  unfold buildComposite
  rw [hb, he, hi]

theorem c3_witness :
    stripFirstLine "RUN z\nRUN w" = .ok "RUN w" ∧
    buildComposite "FROM a\n\nRUN q" "FROM a\n\nRUN r" "RUN z\nRUN w" [] =
      with_file_mounts_for_copies []
        (fixedBaseImageLine ++ "\nRUN q" ++ "\nRUN r" ++ "RUN w") :=
  ⟨rfl, c3_theorem "FROM a\n\nRUN q" "FROM a\n\nRUN r" "RUN z\nRUN w" []
    "\nRUN q" "\nRUN r" "RUN w" rfl rfl rfl⟩

/-- Claim C4 (confirmed): whenever every `COPY `-prefixed line of the text
parses into exactly two tokens and some such line has a source absent from
the file mounts, the rewriting pass fails with a missing-mount error (the
`AssertionError` of line 33) for a source that is indeed unmapped. -/
theorem c4_theorem (m : List (String × String)) (dockerfile : String)
    (hwf : ∀ l ∈ pySplitOn '\n' dockerfile, pyStartsWith "COPY " l = true →
      ((pythonSplit l).drop 1).length = 2)
    (hbad : ∃ l ∈ pySplitOn '\n' dockerfile, pyStartsWith "COPY " l = true ∧
      ∃ src dest, (pythonSplit l).drop 1 = [src, dest] ∧
        m.lookup src = none) :
    ∃ s, with_file_mounts_for_copies m dockerfile =
      .error (.missingMount s) ∧ m.lookup s = none := by
  obtain ⟨s, hs, hn⟩ := processLines_missing hwf hbad
  refine ⟨s, ?_, hn⟩
  unfold with_file_mounts_for_copies
  rw [hs]

theorem c4_witness :
    (∀ l ∈ pySplitOn '\n' "COPY ./a.sh /app/",
      pyStartsWith "COPY " l = true →
        ((pythonSplit l).drop 1).length = 2) ∧
    (∃ l ∈ pySplitOn '\n' "COPY ./a.sh /app/",
      pyStartsWith "COPY " l = true ∧
      ∃ src dest, (pythonSplit l).drop 1 = [src, dest] ∧
        List.lookup src ([] : List (String × String)) = none) ∧
    ∃ s, with_file_mounts_for_copies [] "COPY ./a.sh /app/" =
      .error (.missingMount s) ∧
        List.lookup s ([] : List (String × String)) = none :=
  ⟨by decide,
    ⟨"COPY ./a.sh /app/", by decide, by decide,
      "./a.sh", "/app/", by decide, rfl⟩,
    c4_theorem [] "COPY ./a.sh /app/" (by decide)
      ⟨"COPY ./a.sh /app/", by decide, by decide,
        "./a.sh", "/app/", by decide, rfl⟩⟩

/-- Claim C5 (counterexample): on the `building` then `failed` sequence the
loop raises after one poll, but the raised error's payload is the fixed
string `Blueprint failed`: two handles with different identifiers produce
identical errors, so the error carries neither the identifier nor any
handle-specific state. -/
theorem c5_counterexample :
    awaitCompletion ⟨some "bp-1", "building"⟩ [⟨some "bp-1", "failed"⟩] 0 =
      .buildFailed 1 buildFailedMessage ∧
    awaitCompletion ⟨some "bp-2", "building"⟩ [⟨some "bp-2", "failed"⟩] 0 =
      .buildFailed 1 buildFailedMessage ∧
    buildFailedMessage = "Blueprint failed" :=
  ⟨rfl, rfl, rfl⟩

/-- Claim C5 (corrected): on `building → building → build_complete` waiting
returns success after exactly two polls of the retrieve endpoint; on
`building → failed` it raises after exactly one poll, but the raised
exception carries only the fixed message `Blueprint failed` — the handle's
identifier and last-known state are printed, not attached to the error. -/
theorem c5_theorem :
    awaitCompletion ⟨some "bp-1", "building"⟩
        [⟨some "bp-1", "building"⟩, ⟨some "bp-1", "build_complete"⟩] 0 =
      .success 2 ∧
    awaitCompletion ⟨some "bp-1", "building"⟩ [⟨some "bp-1", "failed"⟩] 0 =
      .buildFailed 1 "Blueprint failed" :=
  ⟨rfl, rfl⟩

/-- Claim C6 (confirmed): in a successful run of the rewriting pass, every
line beginning with `COPY ` that parses into exactly source and destination,
with the source mapped by the file mounts, is replaced in place by the line
`RUN echo <base64 of the UTF-8 content> | base64 -d > <dest><basename(src)>`
where the basename is the final `/`-separated component of the source. -/
theorem c6_theorem (m : List (String × String)) (lines out : List String)
    (i : Nat) (src dest content : String)
    (hok : processLines m lines = .ok out)
    (hi : i < lines.length)
    (hcopy : pyStartsWith "COPY " (lines.getD i "") = true)
    (htok : (pythonSplit (lines.getD i "")).drop 1 = [src, dest])
    (hmount : m.lookup src = some content) :
    out.getD i "" = "RUN echo " ++ b64OfString content ++ " | base64 -d > "
      ++ dest ++ (pySplitOn '/' src).getLastD "" := by
  have h := processLines_ok_getD hok i hi
  unfold processLine at h
  rw [hcopy] at h
  simp only [if_true] at h
  rw [htok] at h
  simp only [hmount] at h
  exact (Except.ok.inj h).symm

theorem c6_witness :
    processLines [("./s.sh", "echo hi")] ["RUN a", "COPY ./s.sh /app/"] =
      .ok ["RUN a", "RUN echo ZWNobyBoaQ== | base64 -d > /app/s.sh"] ∧
    (1 : Nat) < (["RUN a", "COPY ./s.sh /app/"] : List String).length ∧
    pyStartsWith "COPY "
      ((["RUN a", "COPY ./s.sh /app/"] : List String).getD 1 "") = true ∧
    (pythonSplit
      ((["RUN a", "COPY ./s.sh /app/"] : List String).getD 1 "")).drop 1 =
      ["./s.sh", "/app/"] ∧
    List.lookup "./s.sh" [("./s.sh", "echo hi")] = some "echo hi" ∧
    (["RUN a", "RUN echo ZWNobyBoaQ== | base64 -d > /app/s.sh"] :
        List String).getD 1 "" =
      "RUN echo " ++ b64OfString "echo hi" ++ " | base64 -d > " ++ "/app/"
        ++ (pySplitOn '/' "./s.sh").getLastD "" :=
  ⟨rfl, by decide, by decide, by decide, rfl,
    c6_theorem [("./s.sh", "echo hi")] ["RUN a", "COPY ./s.sh /app/"]
      ["RUN a", "RUN echo ZWNobyBoaQ== | base64 -d > /app/s.sh"]
      1 "./s.sh" "/app/" "echo hi" rfl (by decide) (by decide) (by decide)
      rfl⟩

/-- Claim C8 (confirmed): the rewriting pass is a pure function of the file
mounts and the Dockerfile text — two runs on identical inputs return
byte-identical results. -/
theorem c8_theorem (m1 m2 : List (String × String)) (d1 d2 : String)
    (hm : m1 = m2) (hd : d1 = d2) :
    with_file_mounts_for_copies m1 d1 = with_file_mounts_for_copies m2 d2 := by
  rw [hm, hd]

theorem c8_witness :
    with_file_mounts_for_copies [("./s.sh", "echo hi")] "COPY ./s.sh /app/" =
      with_file_mounts_for_copies [("./s.sh", "echo hi")] "COPY ./s.sh /app/" :=
  c8_theorem [("./s.sh", "echo hi")] [("./s.sh", "echo hi")]
    "COPY ./s.sh /app/" "COPY ./s.sh /app/" rfl rfl

/-- Claim C9 (confirmed): a successful run of the COPY-rewriting pass
returns exactly one output line per input line, and every input line that
does not begin with `COPY ` (indented or lowercase copies included) appears
unchanged at the same position. -/
theorem c9_theorem (m : List (String × String)) (lines out : List String)
    (h : processLines m lines = .ok out) :
    out.length = lines.length ∧
      ∀ i : Nat, pyStartsWith "COPY " (lines.getD i "") = false →
        out.getD i "" = lines.getD i "" := by
  refine ⟨processLines_ok_length h, fun i hnc => ?_⟩
  by_cases hlt : i < lines.length
  · have hp := processLines_ok_getD h i hlt
    unfold processLine at hp
    rw [hnc] at hp
    simp only [Bool.false_eq_true, if_false] at hp
    exact (Except.ok.inj hp).symm
  · have hlen := processLines_ok_length h
    have h1 : lines.getD i "" = "" := by
      rw [List.getD_eq_getElem?_getD,
        List.getElem?_eq_none (by omega : lines.length ≤ i)]
      rfl
    have h2 : out.getD i "" = "" := by
      rw [List.getD_eq_getElem?_getD,
        List.getElem?_eq_none (by omega : out.length ≤ i)]
      rfl
    rw [h1, h2]

theorem c9_witness :
    processLines [] ["FROM a", " COPY indented", "copy lower", "RUN b"] =
      .ok ["FROM a", " COPY indented", "copy lower", "RUN b"] ∧
    (["FROM a", " COPY indented", "copy lower", "RUN b"] :
      List String).length =
      (["FROM a", " COPY indented", "copy lower", "RUN b"] :
        List String).length ∧
    (["FROM a", " COPY indented", "copy lower", "RUN b"] :
        List String).getD 1 "" =
      (["FROM a", " COPY indented", "copy lower", "RUN b"] :
        List String).getD 1 "" :=
  ⟨rfl,
    (c9_theorem [] ["FROM a", " COPY indented", "copy lower", "RUN b"]
      ["FROM a", " COPY indented", "copy lower", "RUN b"] rfl).1,
    (c9_theorem [] ["FROM a", " COPY indented", "copy lower", "RUN b"]
      ["FROM a", " COPY indented", "copy lower", "RUN b"] rfl).2 1
      (by decide)⟩

/-- Claim C10 (confirmed): a line beginning with `COPY ` whose token list
after the instruction word does not have exactly two entries makes the
rewriting pass fail with the unpacking `ValueError` of line 32 — the line is
neither rewritten nor passed through, and no named error is raised. -/
theorem c10_theorem (m : List (String × String)) (line : String)
    (h1 : pyStartsWith "COPY " line = true)
    (h2 : ((pythonSplit line).drop 1).length ≠ 2) :
    processLines m [line] = .error .valueError := by
  have hline : processLine m line = .error .valueError := by
    unfold processLine
    rw [h1]
    simp only [if_true]
    split
    · rename_i src dest heq
      rw [heq] at h2
      simp at h2
    · rfl
  unfold processLines
  rw [hline]

theorem c10_witness :
    pyStartsWith "COPY " "COPY ./only-src.sh" = true ∧
    ((pythonSplit "COPY ./only-src.sh").drop 1).length ≠ 2 ∧
    processLines [] ["COPY ./only-src.sh"] = .error .valueError :=
  ⟨by decide, by decide, c10_theorem [] "COPY ./only-src.sh" (by decide)
    (by decide)⟩

theorem char_toNat_lt (c : Char) : c.toNat < 0x110000 := by
  rcases c.valid with h | ⟨_, h⟩ <;>
    simp only [Char.toNat] <;> omega

theorem utf8EncodeChar_lt {n : Nat} (hn : n < 0x110000) :
    ∀ b ∈ utf8EncodeChar n, b < 256 := by
  unfold utf8EncodeChar
  split_ifs with h1 h2 h3 <;> intro b hb <;> simp at hb <;> omega

theorem utf8Encode_lt (s : String) : ∀ b ∈ utf8Encode s, b < 256 := by
  intro b hb
  rw [utf8Encode, List.mem_flatMap] at hb
  obtain ⟨c, _, hbc⟩ := hb
  exact utf8EncodeChar_lt (char_toNat_lt c) b hbc

theorem b64Index_b64Char : ∀ n : Nat, n < 64 → b64Index (b64Char n) = n := by
  decide

theorem b64Char_ne_pad : ∀ n : Nat, n < 64 → ¬ b64Char n = '=' := by
  decide


theorem b64DecodeList_cons4 (c1 c2 c3 c4 : Char) (rest : List Char) :
    b64DecodeList (c1 :: c2 :: c3 :: c4 :: rest) =
      if c4 = '=' then
        if c3 = '=' then
          if rest = [] then some [b64Index c1 * 4 + b64Index c2 / 16] else none
        else
          if rest = [] then
            some [b64Index c1 * 4 + b64Index c2 / 16,
              b64Index c2 % 16 * 16 + b64Index c3 / 4]
          else none
      else
        match b64DecodeList rest with
        | some tail =>
            some ((b64Index c1 * 4 + b64Index c2 / 16) ::
              (b64Index c2 % 16 * 16 + b64Index c3 / 4) ::
                (b64Index c3 % 4 * 64 + b64Index c4) :: tail)
        | none => none :=
  rfl

theorem b64_roundtrip :
    ∀ bs : List Nat, (∀ b ∈ bs, b < 256) →
      b64DecodeList (b64EncodeList bs) = some bs
  | [], _ => rfl
  | [b1], h => by
      have hb1 : b1 < 256 := h b1 (by simp)
      have e1 := b64Index_b64Char (b1 / 4) (by omega)
      have e2 := b64Index_b64Char (b1 % 4 * 16) (by omega)
      simp [b64EncodeList, b64DecodeList, e1, e2]
      omega
  | [b1, b2], h => by
      have hb1 : b1 < 256 := h b1 (by simp)
      have hb2 : b2 < 256 := h b2 (by simp)
      have e1 := b64Index_b64Char (b1 / 4) (by omega)
      have e2 := b64Index_b64Char (b1 % 4 * 16 + b2 / 16) (by omega)
      have e3 := b64Index_b64Char (b2 % 16 * 4) (by omega)
      have ne3 := b64Char_ne_pad (b2 % 16 * 4) (by omega)
      simp [b64EncodeList, b64DecodeList, e1, e2, e3, ne3]
      omega
  | b1 :: b2 :: b3 :: rest, h => by
      have hb1 : b1 < 256 := h b1 (by simp)
      have hb2 : b2 < 256 := h b2 (by simp)
      have hb3 : b3 < 256 := h b3 (by simp)
      have e1 := b64Index_b64Char (b1 / 4) (by omega)
      have e2 := b64Index_b64Char (b1 % 4 * 16 + b2 / 16) (by omega)
      have e3 := b64Index_b64Char (b2 % 16 * 4 + b3 / 64) (by omega)
      have e4 := b64Index_b64Char (b3 % 64) (by omega)
      have ne4 := b64Char_ne_pad (b3 % 64) (by omega)
      have ih := b64_roundtrip rest (fun b hb => h b (by simp [hb]))
      have henc : b64EncodeList (b1 :: b2 :: b3 :: rest) =
          b64Char (b1 / 4) :: b64Char (b1 % 4 * 16 + b2 / 16) ::
            b64Char (b2 % 16 * 4 + b3 / 64) :: b64Char (b3 % 64) ::
              b64EncodeList rest := rfl
      rw [henc, b64DecodeList_cons4, if_neg ne4, ih]
      simp only [Option.some.injEq, List.cons.injEq]
      refine ⟨by omega, by omega, by omega, trivial⟩

theorem utf8EncodeChar_shape (n : Nat) :
    ∃ b tl, utf8EncodeChar n = b :: tl := by
  unfold utf8EncodeChar
  split_ifs <;> exact ⟨_, _, rfl⟩

theorem utf8DecodeOne_cons (b1 : Nat) (rest : List Nat) :
    utf8DecodeOne (b1 :: rest) =
      if b1 < 0x80 then some (b1, rest)
      else if b1 < 0xe0 then
        match rest with
        | b2 :: rest2 => some ((b1 - 0xc0) * 0x40 + (b2 - 0x80), rest2)
        | [] => none
      else if b1 < 0xf0 then
        match rest with
        | b2 :: b3 :: rest3 =>
            some ((b1 - 0xe0) * 0x1000 + (b2 - 0x80) * 0x40 + (b3 - 0x80),
              rest3)
        | _ => none
      else
        match rest with
        | b2 :: b3 :: b4 :: rest4 =>
            some ((b1 - 0xf0) * 0x40000 + (b2 - 0x80) * 0x1000 +
              (b3 - 0x80) * 0x40 + (b4 - 0x80), rest4)
        | _ => none :=
  rfl

theorem utf8DecodeOne_encodeChar (n : Nat) (hn : n < 0x110000)
    (rest : List Nat) :
    utf8DecodeOne (utf8EncodeChar n ++ rest) = some (n, rest) := by
  unfold utf8EncodeChar
  split_ifs with h1 h2 h3
  · simp only [List.cons_append, List.nil_append]
    rw [utf8DecodeOne_cons, if_pos h1]
  · simp only [List.cons_append, List.nil_append]
    rw [utf8DecodeOne_cons, if_neg (by omega : ¬ 0xc0 + n / 0x40 < 0x80),
      if_pos (by omega : 0xc0 + n / 0x40 < 0xe0)]
    simp only [Option.some.injEq, Prod.mk.injEq]
    exact ⟨by omega, trivial⟩
  · simp only [List.cons_append, List.nil_append]
    rw [utf8DecodeOne_cons, if_neg (by omega : ¬ 0xe0 + n / 0x1000 < 0x80),
      if_neg (by omega : ¬ 0xe0 + n / 0x1000 < 0xe0),
      if_pos (by omega : 0xe0 + n / 0x1000 < 0xf0)]
    simp only [Option.some.injEq, Prod.mk.injEq]
    exact ⟨by omega, trivial⟩
  · simp only [List.cons_append, List.nil_append]
    rw [utf8DecodeOne_cons, if_neg (by omega : ¬ 0xf0 + n / 0x40000 < 0x80),
      if_neg (by omega : ¬ 0xf0 + n / 0x40000 < 0xe0),
      if_neg (by omega : ¬ 0xf0 + n / 0x40000 < 0xf0)]
    simp only [Option.some.injEq, Prod.mk.injEq]
    exact ⟨by omega, trivial⟩

theorem utf8DecodeFuel_cons (fuel : Nat) (b1 : Nat) (rest : List Nat) :
    utf8DecodeFuel (fuel + 1) (b1 :: rest) =
      match utf8DecodeOne (b1 :: rest) with
      | some (cp, rest2) =>
          match utf8DecodeFuel fuel rest2 with
          | some tail => some (cp :: tail)
          | none => none
      | none => none :=
  rfl

theorem utf8DecodeFuel_encode :
    ∀ (cs : List Char) (fuel : Nat),
      (cs.flatMap (fun c => utf8EncodeChar c.toNat)).length ≤ fuel →
      utf8DecodeFuel fuel (cs.flatMap (fun c => utf8EncodeChar c.toNat)) =
        some (cs.map Char.toNat) := by
  intro cs
  induction cs with
  | nil =>
      intro fuel _
      cases fuel <;> rfl
  | cons c cs ih =>
      intro fuel hlen
      obtain ⟨b, tl, hshape⟩ := utf8EncodeChar_shape c.toNat
      rw [List.flatMap_cons] at hlen ⊢
      cases fuel with
      | zero =>
          rw [hshape] at hlen
          simp at hlen
      | succ f =>
          have hone : utf8DecodeOne
              (utf8EncodeChar c.toNat ++
                cs.flatMap (fun c => utf8EncodeChar c.toNat)) =
              some (c.toNat, cs.flatMap (fun c => utf8EncodeChar c.toNat)) :=
            utf8DecodeOne_encodeChar c.toNat (char_toNat_lt c) _
          rw [hshape] at hone ⊢
          rw [List.cons_append] at hone ⊢
          rw [utf8DecodeFuel_cons, hone]
          have hrest : (cs.flatMap (fun c => utf8EncodeChar c.toNat)).length ≤ f := by
            rw [hshape] at hlen
            simp only [List.cons_append, List.length_cons,
              List.length_append] at hlen
            omega
          simp [ih f hrest]

theorem utf8_roundtrip (s : String) :
    utf8Decode (utf8Encode s) = some (s.toList.map Char.toNat) := by
  unfold utf8Decode utf8Encode
  exact utf8DecodeFuel_encode s.toList _ (Nat.le_refl _)

/-- Claim C7 (confirmed): for every mount content string — newlines and
non-ASCII text included — base64-decoding the payload placed into the
rewritten `RUN` line and UTF-8-decoding the resulting bytes gives back
exactly the original content. -/
theorem c7_theorem (content : String) :
    decodeB64Utf8 (b64OfString content) = some content := by
  unfold decodeB64Utf8 b64OfString
  have h1 : (String.mk (b64EncodeList (utf8Encode content))).toList =
      b64EncodeList (utf8Encode content) := rfl
  rw [h1, b64_roundtrip (utf8Encode content) (utf8Encode_lt content)]
  simp only [utf8_roundtrip content, List.map_map]
  have h3 : content.toList.map (Char.ofNat ∘ Char.toNat) = content.toList := by
    simp [Function.comp_def, Char.ofNat_toNat]
  rw [h3]
  rfl
